import Mathlib

set_option maxHeartbeats 1000000

/-!
Shallow embedding of minio's `cmd/credential.go` together with the cluster
bootstrap helpers exercised by `cmd/server-main_test.go`.  Pure Go functions
become Lean functions; the entropy drawn by `crypto/rand` and by bcrypt's salt
generation is passed in explicitly as arguments; `time.Time` is modelled as a
`Nat` whose zero value is the zero time; Go errors become an explicit error
type returned in `Option`/`Except`.
-/

/-- Distinct error values of the embedded Go code, one constructor per Go
error (`errInvalidAccessKeyLength`, `errInvalidSecretKeyLength`,
`errXLMinDisks`, `errXLMaxDisks`, `errXLNumDisks`, `errEmptyPort`, the
`strconv.Atoi` parse error and the `missing port in address` error). -/
inductive GoError where
  | invalidAccessKeyLength
  | invalidSecretKeyLength
  | xlMinDisks
  | xlMaxDisks
  | xlNumDisks
  | emptyPort
  | invalidPort (port : String)
  | missingPort (addr : String)
deriving DecidableEq

/-- Functional model of a bcrypt hash value (`golang.org/x/crypto/bcrypt`,
2017 era): a hash records the salt drawn at generation time and the password
bytes actually hashed, which bcrypt truncates to its 72-byte block limit. -/
structure BcryptHash where
  key : List Char
  salt : Nat
deriving DecidableEq

/-- Model of `bcrypt.GenerateFromPassword` at the valid `bcrypt.DefaultCost`:
it draws a fresh salt (passed here explicitly as `salt`) and hashes the first
72 bytes of the password; at a valid cost it does not fail. -/
def generateFromPassword (password : String) (salt : Nat) : BcryptHash :=
  ⟨password.toList.take 72, salt⟩

/-- Model of `bcrypt.CompareHashAndPassword`: it re-hashes the candidate with
the stored salt and cost and compares the results; observably it reports
success (nil error, here `true`) iff the stored truncated password equals the
truncated candidate. -/
def compareHashAndPassword (hash : BcryptHash) (password : String) : Bool :=
  hash.key == password.toList.take 72

/-- Constant `accessKeyMinLen` from `cmd/credential.go`. -/
def accessKeyMinLen : Nat := 5

/-- Constant `accessKeyMaxLen` from `cmd/credential.go`. -/
def accessKeyMaxLen : Nat := 20

/-- Constant `secretKeyMinLen` from `cmd/credential.go`. -/
def secretKeyMinLen : Nat := 8

/-- Package variable `secretKeyMaxLen` from `cmd/credential.go`, initialised
to `secretKeyMaxLenAmazon = 40`; nothing in the sources mutates it. -/
def secretKeyMaxLen : Nat := 40

/-- Constant `alphaNumericTable` from `cmd/credential.go` (36 characters). -/
def alphaNumericTable : String := "0123456789ABCDEFGHIJKLMNOPQRSTUVWXYZ"

/-- Function `isAccessKeyValid` from `cmd/credential.go`. -/
def isAccessKeyValid (accessKey : String) : Bool :=
  accessKeyMinLen ≤ accessKey.length && accessKey.length ≤ accessKeyMaxLen

/-- Function `isSecretKeyValid` from `cmd/credential.go`. -/
def isSecretKeyValid (secretKey : String) : Bool :=
  secretKeyMinLen ≤ secretKey.length && secretKey.length ≤ secretKeyMaxLen

/-- Structure `credential` from `cmd/credential.go`; `Expiry` models the
`time.Time` field as a `Nat` with 0 the zero time, and `secretKeyHash` the
lazily filled `[]byte` hash cache (`none` models a nil slice). -/
structure credential where
  AccessKey : String
  SecretKey : String
  Expiry : Nat
  secretKeyHash : Option BcryptHash
deriving DecidableEq

/-- Method `IsValid` of `credential`. -/
def credential.IsValid (cred : credential) : Bool :=
  isAccessKeyValid cred.AccessKey && isSecretKeyValid cred.SecretKey

/-- Body of the `Equal` method of `credential`.  The Go receiver is passed by
value, so the body works on a copy; this function returns the result together
with the final state of that receiver copy, whose `secretKeyHash` cache the
body fills in when it is nil.  `salt` is the entropy bcrypt would draw if a
fresh hash has to be computed (at `DefaultCost` the hash generation cannot
fail, so the `errorIf` branch of the Go code is unreachable). -/
def credential.EqualBody (cred ccred : credential) (salt : Nat) :
    Bool × credential :=
  if ccred.IsValid = false then (false, cred)
  else
    let h := cred.secretKeyHash.getD (generateFromPassword cred.SecretKey salt)
    ((cred.AccessKey == ccred.AccessKey) && compareHashAndPassword h ccred.SecretKey,
      { cred with secretKeyHash := some h })

/-- Method `Equal` of `credential` as the caller observes it: since the
receiver is a value receiver, the caller sees only the returned boolean and
its own credentials are untouched. -/
def credential.Equal (cred ccred : credential) (salt : Nat) : Bool :=
  (credential.EqualBody cred ccred salt).1

/-- Function `createCredentialWithExpiry` from `cmd/credential.go`; `salt` is
the entropy bcrypt draws for the hash.  Following the Go control flow, the
final `if !expiry.IsZero() { cred.Expiry = expiry }` statement runs on the
error paths as well. -/
def createCredentialWithExpiry (accessKey secretKey : String)
    (expiry salt : Nat) : credential × Option GoError :=
  let step : credential × Option GoError :=
    if isAccessKeyValid accessKey = false then
      (⟨"", "", 0, none⟩, some .invalidAccessKeyLength)
    else if isSecretKeyValid secretKey = false then
      (⟨"", "", 0, none⟩, some .invalidSecretKeyLength)
    else
      (⟨accessKey, secretKey, 0, some (generateFromPassword secretKey salt)⟩, none)
  if expiry ≠ 0 then ({ step.1 with Expiry := expiry }, step.2) else step

/-- StdEncoding alphabet of `encoding/base64`. -/
def b64Alphabet : String :=
  "ABCDEFGHIJKLMNOPQRSTUVWXYZabcdefghijklmnopqrstuvwxyz0123456789+/"

/-- Character for one 6-bit group of the base64 encoding. -/
def b64Char (n : Nat) : Char := b64Alphabet.toList.getD (n % 64) 'A'

/-- Model of `base64.StdEncoding.EncodeToString` over byte values, including
the trailing padding. -/
def base64Encode : List Nat → List Char
  | [] => []
  | [b1] => [b64Char (b1 / 4), b64Char (b1 % 4 * 16), '=', '=']
  | [b1, b2] =>
      [b64Char (b1 / 4), b64Char (b1 % 4 * 16 + b2 / 16), b64Char (b2 % 16 * 4), '=']
  | b1 :: b2 :: b3 :: rest =>
      b64Char (b1 / 4) :: b64Char (b1 % 4 * 16 + b2 / 16) ::
      b64Char (b2 % 16 * 4 + b3 / 64) :: b64Char (b3 % 64) :: base64Encode rest

/-- Access-key byte mapping of `getNewCredentialWithExpiry`:
`keyBytes[i] = alphaNumericTable[keyBytes[i] % alphaNumericTableLen]`. -/
def alphaNumericChar (b : Nat) : Char := alphaNumericTable.toList.getD (b % 36) 'A'

/-- Function `getNewCredentialWithExpiry` from `cmd/credential.go`.  `randA`
and `randS` are the byte strings `crypto/rand.Read` fills (of lengths
`accessKeyMaxLen = 20` and `secretKeyMaxLen = 40` respectively) and `salt` the
bcrypt entropy.  When `createCredentialWithExpiry` errors, the Go code
returns the empty `credential{}`. -/
def getNewCredentialWithExpiry (randA randS : List Nat) (expiry salt : Nat) :
    credential × Option GoError :=
  let accessKey := String.mk (randA.map alphaNumericChar)
  let secretKey := String.mk ((base64Encode randS).take secretKeyMaxLen)
  match createCredentialWithExpiry accessKey secretKey expiry salt with
  | (cred, none) => (cred, none)
  | (_, some e) => (⟨"", "", 0, none⟩, some e)

/-- Modelled from the spec: the `StorageEndpoint` data model (spec §3); the
parser `parseStorageEndpoints` is absent from the sources (only its tests
appear).  Only the number of endpoints matters to the claims below. -/
structure StorageEndpoint where
  host : String
  path : String
deriving DecidableEq

/-- Modelled from the spec: `checkSufficientDisks` (Disk-Quorum Validator,
spec §4.3) is absent from the sources; only `TestCheckSufficientDisks` is
present.  Rules evaluated in order, first failing rule wins: fewer than 6
endpoints fails with `errXLMinDisks`, more than 16 fails with
`errXLMaxDisks`, an odd count fails with `errXLNumDisks`, otherwise success
(`none`). -/
def checkSufficientDisks (endpoints : List StorageEndpoint) : Option GoError :=
  if endpoints.length < 6 then some .xlMinDisks
  else if endpoints.length > 16 then some .xlMaxDisks
  else if endpoints.length % 2 ≠ 0 then some .xlNumDisks
  else none

/-- Storage engine variants distinguished by `TestNewObjectLayer`
(`fsObjects` vs `xlObjects`). -/
inductive ObjectLayer where
  | fsObjects (endpoint : StorageEndpoint)
  | xlObjects (endpoints : List StorageEndpoint)
deriving DecidableEq

/-- Modelled from the spec: `newObjectLayer` (Backend Selector, spec §4.5) is
absent from the sources; only `TestNewObjectLayer` is present.  A single
endpoint selects the filesystem backend without consulting the disk-count
rules; otherwise the Disk-Quorum Validator runs first and on success the
erasure-coded backend is constructed over all endpoints. -/
def newObjectLayer (endpoints : List StorageEndpoint) :
    Except GoError ObjectLayer :=
  if endpoints.length = 1 then .ok (.fsObjects (endpoints.getD 0 ⟨"", ""⟩))
  else
    match checkSufficientDisks endpoints with
    | some e => .error e
    | none => .ok (.xlObjects endpoints)

/-- Split a character list at its last colon, returning the parts before and
after it, or `none` when the list has no colon. -/
def splitAtLastColon : List Char → Option (List Char × List Char)
  | [] => none
  | c :: rest =>
    match splitAtLastColon rest with
    | some (h, p) => some (c :: h, p)
    | none => if c = ':' then some ([], rest) else none

/-- Modelled from the spec: the host:port split inside `getHostPort` (spec
§4.1; the function is absent from the sources, only `TestGetHostPort` is
present).  An address with no port separator at all fails with the
missing-port error. -/
def splitHostPort (addr : String) : Except GoError (String × String) :=
  match splitAtLastColon addr.toList with
  | none => .error (.missingPort addr)
  | some (h, p) => .ok (String.mk h, String.mk p)

/-- Decimal test for the port segment (`strconv.Atoi` succeeds on it). -/
def isDecimal (s : String) : Bool :=
  !s.toList.isEmpty && s.toList.all Char.isDigit

/-- Modelled from the spec: `getHostPort` (spec §4.1, absent from the
sources): an empty port or the literal "0" fails with `errEmptyPort`, a
non-decimal port fails with the parse error, otherwise the host and port
parts are returned. -/
def getHostPort (addr : String) : Except GoError (String × String) :=
  match splitHostPort addr with
  | .error e => .error e
  | .ok (host, port) =>
    if port = "" || port = "0" then .error .emptyPort
    else if isDecimal port = false then .error (.invalidPort port)
    else .ok (host, port)

/-- Modelled from the spec: `getListenIPs` (spec §4.1, absent from the
sources; only `TestGetListenIPs` is present): the address is resolved via
`getHostPort`; for an empty host the local interface addresses `ifaceIPs`
are returned, falling back to loopback when none exist; otherwise the single
given host is returned, in every case with the validated port. -/
def getListenIPs (ifaceIPs : List String) (addr : String) :
    Except GoError (List String × String) :=
  match getHostPort addr with
  | .error e => .error e
  | .ok (host, port) =>
    if host = "" then
      if ifaceIPs.isEmpty then .ok (["127.0.0.1"], port) else .ok (ifaceIPs, port)
    else .ok ([host], port)

/-- Helper: a character list without a colon has no split point. -/
theorem splitAtLastColon_eq_none (l : List Char) (h : ∀ c ∈ l, c ≠ ':') :
    splitAtLastColon l = none := by
  induction l with
  | nil => rfl
  | cons c rest ih =>
    have hc : c ≠ ':' := h c (List.mem_cons_self _ _)
    have hrest := ih fun x hx => h x (List.mem_cons_of_mem _ hx)
    simp [splitAtLastColon, hrest, hc]

/-- C3: `checkSufficientDisks` applies its rules in order with the first
failing rule winning: it succeeds on 6, 12 or 16 endpoints, fails with
exactly `errXLMaxDisks` on 17 endpoints, with exactly `errXLMinDisks` on 3
endpoints, and with exactly `errXLNumDisks` on 11 (odd-count) endpoints. -/
theorem checkSufficientDisks_spec (endpoints : List StorageEndpoint) :
    ((endpoints.length = 6 ∨ endpoints.length = 12 ∨ endpoints.length = 16) →
      checkSufficientDisks endpoints = none)
    ∧ (endpoints.length = 17 → checkSufficientDisks endpoints = some .xlMaxDisks)
    ∧ (endpoints.length = 3 → checkSufficientDisks endpoints = some .xlMinDisks)
    ∧ (endpoints.length = 11 → checkSufficientDisks endpoints = some .xlNumDisks) := by
  unfold checkSufficientDisks
  refine ⟨?_, ?_, ?_, ?_⟩ <;> intro h
  · rcases h with h | h | h <;> simp [h]
  all_goals simp [h]

/-- Witness for C3 at concrete endpoint lists of sizes 6, 17, 3 and 11. -/
theorem checkSufficientDisks_spec_witness :
    checkSufficientDisks (List.replicate 6 ⟨"h", "/mnt/b"⟩) = none
    ∧ checkSufficientDisks (List.replicate 17 ⟨"h", "/mnt/b"⟩) = some .xlMaxDisks
    ∧ checkSufficientDisks (List.replicate 3 ⟨"h", "/mnt/b"⟩) = some .xlMinDisks
    ∧ checkSufficientDisks (List.replicate 11 ⟨"h", "/mnt/b"⟩) = some .xlNumDisks :=
  ⟨(checkSufficientDisks_spec _).1 (Or.inl (by simp)),
   (checkSufficientDisks_spec _).2.1 (by simp),
   (checkSufficientDisks_spec _).2.2.1 (by simp),
   (checkSufficientDisks_spec _).2.2.2 (by simp)⟩

/-- C4: `newObjectLayer` on a single endpoint constructs the single-node
filesystem backend even though the disk-count rules would reject a one-disk
set (so those rules are bypassed), and on every 16-endpoint topology it
constructs the multi-disk erasure-coded backend. -/
theorem newObjectLayer_spec :
    (∀ e : StorageEndpoint,
      newObjectLayer [e] = .ok (.fsObjects e)
        ∧ checkSufficientDisks [e] = some .xlMinDisks)
    ∧ (∀ endpoints : List StorageEndpoint, endpoints.length = 16 →
        newObjectLayer endpoints = .ok (.xlObjects endpoints)) := by
  constructor
  · intro e
    constructor
    · simp [newObjectLayer]
    · simp [checkSufficientDisks]
  · intro endpoints h
    simp [newObjectLayer, h, checkSufficientDisks]

/-- Witness for C4 at a concrete single endpoint and a concrete 16-endpoint
topology. -/
theorem newObjectLayer_spec_witness :
    newObjectLayer [⟨"", "/mnt/d1"⟩] = .ok (.fsObjects ⟨"", "/mnt/d1"⟩)
    ∧ newObjectLayer (List.replicate 16 ⟨"", "/mnt/d1"⟩)
        = .ok (.xlObjects (List.replicate 16 ⟨"", "/mnt/d1"⟩)) :=
  ⟨(newObjectLayer_spec.1 ⟨"", "/mnt/d1"⟩).1,
   newObjectLayer_spec.2 _ (by simp)⟩

/-- C8: address resolution fails with `errEmptyPort` whenever the split port
part is empty or the literal "0", and fails with the missing-port error when
the address has no port separator at all. -/
theorem getHostPort_empty_port (addr host port : String) :
    (splitHostPort addr = .ok (host, port) → port = "" ∨ port = "0" →
      getHostPort addr = .error .emptyPort)
    ∧ ((∀ c ∈ addr.toList, c ≠ ':') →
      getHostPort addr = .error (.missingPort addr)) := by
  constructor
  · intro hsplit hport
    unfold getHostPort
    rw [hsplit]
    rcases hport with h | h <;> simp [h]
  · intro hnc
    have hs : splitHostPort addr = .error (.missingPort addr) := by
      unfold splitHostPort
      rw [splitAtLastColon_eq_none _ hnc]
    unfold getHostPort
    rw [hs]

/-- Witness for C8 at the concrete addresses ":0" and "hostname". -/
theorem getHostPort_empty_port_witness :
    getHostPort ":0" = .error .emptyPort
    ∧ getHostPort "hostname" = .error (.missingPort "hostname") :=
  ⟨(getHostPort_empty_port ":0" "" "0").1 rfl (Or.inr rfl),
   (getHostPort_empty_port "hostname" "" "").2 (by decide)⟩

/-- C9: for every bind address of the form ":port" with a valid non-zero
decimal port, `getListenIPs` succeeds, returns a non-empty list of host IPs
and returns exactly the port string that was supplied. -/
theorem getListenIPs_wildcard (ifaceIPs : List String) (l : List Char)
    (hne : l ≠ []) (hdig : ∀ c ∈ l, c.isDigit = true)
    (hnz : String.mk l ≠ "0") :
    ∃ hosts : List String,
      getListenIPs ifaceIPs (String.mk (':' :: l)) = .ok (hosts, String.mk l)
        ∧ hosts ≠ [] := by
  have hsplit : splitAtLastColon (':' :: l) = some ([], l) := by
    have hnone : splitAtLastColon l = none := by
      refine splitAtLastColon_eq_none l fun c hc hEq => ?_
      have := hdig c hc
      rw [hEq] at this
      simp at this
    simp [splitAtLastColon, hnone]
  have hportne : String.mk l ≠ "" := by
    intro h
    apply hne
    have : (String.mk l).toList = ("" : String).toList := by rw [h]
    simpa using this
  have h1 : l.isEmpty = false := by
    cases l with
    | nil => exact absurd rfl hne
    | cons a t => rfl
  have h2 : l.all Char.isDigit = true := by
    rw [List.all_eq_true]; exact hdig
  have hdec : isDecimal (String.mk l) = true := by
    simp only [isDecimal]
    have : (String.mk l).toList = l := rfl
    rw [this, h1, h2]
    rfl
  have hget : getHostPort (String.mk (':' :: l)) = .ok ("", String.mk l) := by
    unfold getHostPort splitHostPort
    have h3 : (String.mk (':' :: l)).toList = ':' :: l := rfl
    rw [h3, hsplit]
    simp [hportne, hnz, hdec]
  unfold getListenIPs
  rw [hget]
  by_cases hi : ifaceIPs.isEmpty
  · exact ⟨["127.0.0.1"], by simp [hi], by simp⟩
  · refine ⟨ifaceIPs, by simp [hi], fun h => ?_⟩
    rw [h] at hi
    simp at hi

/-- Witness for C9 at the concrete address ":9000" with one interface IP. -/
theorem getListenIPs_wildcard_witness :
    ∃ hosts : List String,
      getListenIPs ["10.0.0.2"] (String.mk (':' :: ['9', '0', '0', '0']))
          = .ok (hosts, String.mk ['9', '0', '0', '0'])
        ∧ hosts ≠ [] :=
  getListenIPs_wildcard ["10.0.0.2"] ['9', '0', '0', '0']
    (by decide) (by decide) (by decide)

/-- Helper: the length of the base64 encoding of `l` is four characters per
started group of three bytes. -/
theorem base64Encode_length :
    ∀ l : List Nat, (base64Encode l).length = 4 * ((l.length + 2) / 3)
  | [] => rfl
  | [_] => by
      simp only [base64Encode, List.length_cons, List.length_nil]
  | [_, _] => by
      simp only [base64Encode, List.length_cons, List.length_nil]
  | _ :: _ :: _ :: rest => by
      simp only [base64Encode, List.length_cons, base64Encode_length rest]
      omega

/-- Helper: `isAccessKeyValid` unfolded to arithmetic. -/
theorem isAccessKeyValid_iff (s : String) :
    isAccessKeyValid s = true ↔ 5 ≤ s.length ∧ s.length ≤ 20 := by
  simp [isAccessKeyValid, accessKeyMinLen, accessKeyMaxLen]

/-- Helper: `isSecretKeyValid` unfolded to arithmetic. -/
theorem isSecretKeyValid_iff (s : String) :
    isSecretKeyValid s = true ↔ 8 ≤ s.length ∧ s.length ≤ 40 := by
  simp [isSecretKeyValid, secretKeyMinLen, secretKeyMaxLen]

/-- Helper: characters produced by the access-key mapping lie in the fixed
alphanumeric table. -/
theorem alphaNumericChar_mem (b : Nat) :
    alphaNumericChar b ∈ alphaNumericTable.toList := by
  have h : b % 36 < (alphaNumericTable.toList).length := by
    have h36 : (alphaNumericTable.toList).length = 36 := rfl
    rw [h36]
    exact Nat.mod_lt _ (by decide)
  rw [alphaNumericChar, List.getD_eq_getElem _ _ h]
  exact List.getElem_mem h

/-- Helper: a string's character-list length is its length. -/
theorem string_data_length (s : String) : s.data.length = s.length := by
  cases s
  rfl

/-- Helper: `createCredentialWithExpiry` on valid keys returns the filled
credential, hash cached, and no error. -/
theorem createCredentialWithExpiry_of_valid (ak sk : String) (expiry salt : Nat)
    (ha : isAccessKeyValid ak = true) (hs : isSecretKeyValid sk = true) :
    createCredentialWithExpiry ak sk expiry salt =
      (⟨ak, sk, if expiry = 0 then 0 else expiry,
          some (generateFromPassword sk salt)⟩, none) := by
  unfold createCredentialWithExpiry
  by_cases he : expiry = 0 <;> simp [he, ha, hs]

/-- Helper: `createCredentialWithExpiry` on an invalid access key returns the
access-key length error, with only the expiry copied into the credential. -/
theorem createCredentialWithExpiry_invalid_access (ak sk : String)
    (expiry salt : Nat) (ha : isAccessKeyValid ak = false) :
    createCredentialWithExpiry ak sk expiry salt =
      (⟨"", "", if expiry = 0 then 0 else expiry, none⟩,
        some .invalidAccessKeyLength) := by
  unfold createCredentialWithExpiry
  by_cases he : expiry = 0 <;> simp [he, ha]

/-- Helper: `createCredentialWithExpiry` on a valid access key but invalid
secret key returns the secret-key length error, with only the expiry copied
into the credential. -/
theorem createCredentialWithExpiry_invalid_secret (ak sk : String)
    (expiry salt : Nat) (ha : isAccessKeyValid ak = true)
    (hs : isSecretKeyValid sk = false) :
    createCredentialWithExpiry ak sk expiry salt =
      (⟨"", "", if expiry = 0 then 0 else expiry, none⟩,
        some .invalidSecretKeyLength) := by
  unfold createCredentialWithExpiry
  by_cases he : expiry = 0 <;> simp [he, ha, hs]

/-- C6: every credential generated from 20 access-key random bytes and 40
secret-key random bytes is produced without error, satisfies `IsValid`, has
an access key of length exactly 20 all of whose characters lie in the fixed
36-character alphanumeric table, and has a secret key of length exactly 40. -/
theorem getNewCredentialWithExpiry_spec (randA randS : List Nat)
    (expiry salt : Nat) (hA : randA.length = 20) (hS : randS.length = 40) :
    (getNewCredentialWithExpiry randA randS expiry salt).2 = none
    ∧ ((getNewCredentialWithExpiry randA randS expiry salt).1).IsValid = true
    ∧ ((getNewCredentialWithExpiry randA randS expiry salt).1).AccessKey.length = 20
    ∧ (∀ c ∈ ((getNewCredentialWithExpiry randA randS expiry salt).1).AccessKey.toList,
        c ∈ alphaNumericTable.toList)
    ∧ ((getNewCredentialWithExpiry randA randS expiry salt).1).SecretKey.length = 40 := by
  have hakL : (String.mk (randA.map alphaNumericChar)).length = 20 := by
    rw [← string_data_length]
    simp [hA]
  have hskL : (String.mk ((base64Encode randS).take secretKeyMaxLen)).length = 40 := by
    rw [← string_data_length]
    show ((base64Encode randS).take secretKeyMaxLen).length = 40
    rw [List.length_take, base64Encode_length, hS]
    rfl
  have hav : isAccessKeyValid (String.mk (randA.map alphaNumericChar)) = true := by
    rw [isAccessKeyValid_iff, hakL]
    omega
  have hsv : isSecretKeyValid (String.mk ((base64Encode randS).take secretKeyMaxLen)) = true := by
    rw [isSecretKeyValid_iff, hskL]
    omega
  have hcre := createCredentialWithExpiry_of_valid
    (String.mk (randA.map alphaNumericChar))
    (String.mk ((base64Encode randS).take secretKeyMaxLen)) expiry salt hav hsv
  simp only [getNewCredentialWithExpiry, hcre]
  refine ⟨trivial, ?_, hakL, ?_, hskL⟩
  · simp [credential.IsValid, hav, hsv]
  · intro c hc
    simp only [String.toList] at hc
    have hc2 : c ∈ randA.map alphaNumericChar := hc
    rcases List.mem_map.1 hc2 with ⟨b, _, hb⟩
    rw [← hb]
    exact alphaNumericChar_mem b

/-- Witness for C6 at concrete random bytes. -/
theorem getNewCredentialWithExpiry_spec_witness :
    (getNewCredentialWithExpiry (List.replicate 20 65) (List.replicate 40 1) 0 0).2 = none
    ∧ ((getNewCredentialWithExpiry (List.replicate 20 65) (List.replicate 40 1) 0 0).1).IsValid = true
    ∧ ((getNewCredentialWithExpiry (List.replicate 20 65) (List.replicate 40 1) 0 0).1).AccessKey.length = 20
    ∧ ((getNewCredentialWithExpiry (List.replicate 20 65) (List.replicate 40 1) 0 0).1).SecretKey.length = 40 := by
  have h := getNewCredentialWithExpiry_spec (List.replicate 20 65)
    (List.replicate 40 1) 0 0 (by simp) (by simp)
  exact ⟨h.1, h.2.1, h.2.2.1, h.2.2.2.2⟩

/-- Helper: the hash `Equal` compares against records the truncated secret
key of the receiver whenever the cache is unset or was filled from the
receiver's own secret key. -/
theorem hash_key_of_own (c : credential) (salt : Nat)
    (hh : c.secretKeyHash = none
        ∨ ∃ s0, c.secretKeyHash = some (generateFromPassword c.SecretKey s0)) :
    (c.secretKeyHash.getD (generateFromPassword c.SecretKey salt)).key
      = c.SecretKey.toList.take 72 := by
  rcases hh with h | ⟨s0, h⟩ <;> simp [h, generateFromPassword]

/-- C1: `Equal credA credB` returns true iff `credB` is valid, the access
keys agree, and `credB`'s secret key matches `credA`'s cached or freshly
computed salted secret-key hash; in particular it returns false for every
invalid `credB`, and for a valid `credB` with the correct access key but a
wrong secret key (when `credA`'s cache is unset or was filled from its own
secret key, as `create` fills it). -/
theorem credential_Equal_spec (credA credB : credential) (salt : Nat) :
    (credential.Equal credA credB salt
        = (credB.IsValid && (credA.AccessKey == credB.AccessKey)
            && compareHashAndPassword
                (credA.secretKeyHash.getD (generateFromPassword credA.SecretKey salt))
                credB.SecretKey))
    ∧ (credB.IsValid = false → credential.Equal credA credB salt = false)
    ∧ ((credA.secretKeyHash = none
          ∨ ∃ s0, credA.secretKeyHash = some (generateFromPassword credA.SecretKey s0)) →
        credB.IsValid = true → credA.AccessKey = credB.AccessKey →
        credA.SecretKey ≠ credB.SecretKey →
        credential.Equal credA credB salt = false) := by
  refine ⟨?_, ?_, ?_⟩
  · rcases Bool.eq_false_or_eq_true credB.IsValid with hb | hb <;>
      simp [credential.Equal, credential.EqualBody, hb]
  · intro hb
    simp [credential.Equal, credential.EqualBody, hb]
  · intro hh hb hak hsk
    have hkey := hash_key_of_own credA salt hh
    have hsv : isSecretKeyValid credB.SecretKey = true := by
      have hb2 := hb
      simp only [credential.IsValid, Bool.and_eq_true] at hb2
      exact hb2.2
    have hBlen : credB.SecretKey.length ≤ 40 := ((isSecretKeyValid_iff _).1 hsv).2
    have hBlen2 : credB.SecretKey.toList.length ≤ 72 := by
      have : credB.SecretKey.toList.length = credB.SecretKey.length :=
        string_data_length credB.SecretKey
      omega
    have hBtake : credB.SecretKey.toList.take 72 = credB.SecretKey.toList :=
      List.take_of_length_le hBlen2
    have hcmp : compareHashAndPassword
        (credA.secretKeyHash.getD (generateFromPassword credA.SecretKey salt))
        credB.SecretKey = false := by
      simp only [compareHashAndPassword, hkey]
      rw [beq_eq_false_iff_ne]
      intro heq
      by_cases hA72 : credA.SecretKey.toList.length ≤ 72
      · have hAtake : credA.SecretKey.toList.take 72 = credA.SecretKey.toList :=
          List.take_of_length_le hA72
        rw [hAtake, hBtake] at heq
        exact hsk (String.ext heq)
      · have hlen72 : (credA.SecretKey.toList.take 72).length = 72 := by
          rw [List.length_take]
          omega
        rw [hBtake] at heq
        rw [heq] at hlen72
        have hBlist : credB.SecretKey.toList.length = credB.SecretKey.length :=
          string_data_length credB.SecretKey
        omega
    simp [credential.Equal, credential.EqualBody, hb, hcmp]

/-- Witness for C1: a valid candidate with the right access key but a wrong
secret key is rejected. -/
theorem credential_Equal_spec_witness :
    credential.Equal ⟨"AKIAI", "secretone", 0, none⟩
      ⟨"AKIAI", "secrettwo", 0, none⟩ 0 = false :=
  (credential_Equal_spec ⟨"AKIAI", "secretone", 0, none⟩
      ⟨"AKIAI", "secrettwo", 0, none⟩ 0).2.2
    (Or.inl rfl) (by decide) rfl (by decide)

/-- Counterexample to C2 as stated: with access key "abc" (too short),
secret key "x" (also too short) and a non-zero expiry 5,
`createCredentialWithExpiry` fails with `errInvalidAccessKeyLength` (not the
secret-key error, although the secret-key length is also out of [8,40]) and
the returned credential is not the empty one: it carries `Expiry = 5`. -/
theorem createCredentialWithExpiry_not_empty_on_failure :
    (createCredentialWithExpiry "abc" "x" 5 0).2 = some .invalidAccessKeyLength
    ∧ (createCredentialWithExpiry "abc" "x" 5 0).2 ≠ some .invalidSecretKeyLength
    ∧ ¬(8 ≤ ("x" : String).length ∧ ("x" : String).length ≤ 40)
    ∧ ((createCredentialWithExpiry "abc" "x" 5 0).1).Expiry = 5
    ∧ (createCredentialWithExpiry "abc" "x" 5 0).1
        ≠ (⟨"", "", 0, none⟩ : credential) := by
  refine ⟨by decide, by decide, by decide, by decide, by decide⟩

/-- C2 (amended): `createCredentialWithExpiry` succeeds with a valid
credential iff the access-key length is in [5,20] and the secret-key length
is in [8,40]; an out-of-range access key fails with exactly
`errInvalidAccessKeyLength` (this error takes priority when both keys are
out of range); an in-range access key with an out-of-range secret key fails
with exactly `errInvalidSecretKeyLength`; and on failure the returned
credential carries no key material (empty access and secret keys, no hash),
though a non-zero expiry is still copied into it. -/
theorem createCredentialWithExpiry_spec (ak sk : String) (expiry salt : Nat) :
    (((createCredentialWithExpiry ak sk expiry salt).2 = none
        ∧ ((createCredentialWithExpiry ak sk expiry salt).1).IsValid = true)
      ↔ (5 ≤ ak.length ∧ ak.length ≤ 20 ∧ 8 ≤ sk.length ∧ sk.length ≤ 40))
    ∧ (¬(5 ≤ ak.length ∧ ak.length ≤ 20) →
        (createCredentialWithExpiry ak sk expiry salt).2
          = some .invalidAccessKeyLength)
    ∧ ((5 ≤ ak.length ∧ ak.length ≤ 20) → ¬(8 ≤ sk.length ∧ sk.length ≤ 40) →
        (createCredentialWithExpiry ak sk expiry salt).2
          = some .invalidSecretKeyLength)
    ∧ ((createCredentialWithExpiry ak sk expiry salt).2 ≠ none →
        ((createCredentialWithExpiry ak sk expiry salt).1).AccessKey = ""
        ∧ ((createCredentialWithExpiry ak sk expiry salt).1).SecretKey = ""
        ∧ ((createCredentialWithExpiry ak sk expiry salt).1).secretKeyHash = none
        ∧ ((createCredentialWithExpiry ak sk expiry salt).1).Expiry
            = (if expiry = 0 then 0 else expiry)) := by
  by_cases ha : isAccessKeyValid ak = true
  · by_cases hs : isSecretKeyValid sk = true
    · have hcre := createCredentialWithExpiry_of_valid ak sk expiry salt ha hs
      have hin1 := (isAccessKeyValid_iff ak).1 ha
      have hin2 := (isSecretKeyValid_iff sk).1 hs
      rw [hcre]
      refine ⟨?_, ?_, ?_, ?_⟩
      · constructor
        · intro _
          exact ⟨hin1.1, hin1.2, hin2.1, hin2.2⟩
        · intro _
          refine ⟨rfl, ?_⟩
          simp [credential.IsValid, ha, hs]
      · intro hnot
        exact absurd hin1 hnot
      · intro _ hnot
        exact absurd hin2 hnot
      · intro h
        exact absurd rfl h
    · have hs2 : isSecretKeyValid sk = false := Bool.eq_false_iff.mpr hs
      have hcre := createCredentialWithExpiry_invalid_secret ak sk expiry salt ha hs2
      have hnotin : ¬(8 ≤ sk.length ∧ sk.length ≤ 40) := by
        rw [← isSecretKeyValid_iff]
        exact hs
      rw [hcre]
      refine ⟨?_, ?_, fun _ _ => rfl, fun _ => ⟨rfl, rfl, rfl, rfl⟩⟩
      · constructor
        · intro h
          exact absurd h.1 (by simp)
        · intro h
          exact absurd ⟨h.2.2.1, h.2.2.2⟩ hnotin
      · intro hnot
        exact absurd ((isAccessKeyValid_iff ak).1 ha) hnot
  · have ha2 : isAccessKeyValid ak = false := Bool.eq_false_iff.mpr ha
    have hcre := createCredentialWithExpiry_invalid_access ak sk expiry salt ha2
    have hnotin : ¬(5 ≤ ak.length ∧ ak.length ≤ 20) := by
      rw [← isAccessKeyValid_iff]
      exact ha
    rw [hcre]
    refine ⟨?_, fun _ => rfl, ?_, fun _ => ⟨rfl, rfl, rfl, rfl⟩⟩
    · constructor
      · intro h
        exact absurd h.1 (by simp)
      · intro h
        exact absurd ⟨h.1, h.2.1⟩ hnotin
    · intro hin _
      exact absurd ((isAccessKeyValid_iff ak).2 hin) ha

/-- Witness for C2 (amended): a valid access key with a too-short secret key
yields exactly the secret-key length error. -/
theorem createCredentialWithExpiry_spec_witness :
    (createCredentialWithExpiry "AKIAI" "x" 0 0).2 = some .invalidSecretKeyLength :=
  (createCredentialWithExpiry_spec "AKIAI" "x" 0 0).2.2.1 (by decide) (by decide)

/-- C7: calling `Equal` twice with the same credentials yields the same
result whatever fresh salt bcrypt draws, even when the second call starts
from the receiver copy whose hash cache the first call filled in; and the
call leaves the externally observable fields of the receiver copy (access
key, secret key, expiry) unchanged — the caller's own credentials, passed by
value, are untouched entirely. -/
theorem credential_Equal_frame (credA credB : credential) (s1 s2 : Nat) :
    credential.Equal credA credB s1 = credential.Equal credA credB s2
    ∧ credential.Equal (credential.EqualBody credA credB s1).2 credB s2
        = credential.Equal credA credB s1
    ∧ ((credential.EqualBody credA credB s1).2).AccessKey = credA.AccessKey
    ∧ ((credential.EqualBody credA credB s1).2).SecretKey = credA.SecretKey
    ∧ ((credential.EqualBody credA credB s1).2).Expiry = credA.Expiry := by
  by_cases hb : credB.IsValid = true
  · rcases hA : credA.secretKeyHash with _ | h0 <;>
      simp [credential.Equal, credential.EqualBody, hb, hA,
        compareHashAndPassword, generateFromPassword]
  · have hb2 : credB.IsValid = false := Bool.eq_false_iff.mpr hb
    simp [credential.Equal, credential.EqualBody, hb2]

/-- C10: `Equal` is reflexive on valid credentials whose hash cache is unset
or was computed from their own secret key, as `create` fills it. -/
theorem credential_Equal_refl (c : credential) (salt : Nat)
    (hv : c.IsValid = true)
    (hh : c.secretKeyHash = none
        ∨ ∃ s0, c.secretKeyHash = some (generateFromPassword c.SecretKey s0)) :
    credential.Equal c c salt = true := by
  have hkey := hash_key_of_own c salt hh
  simp [credential.Equal, credential.EqualBody, hv, compareHashAndPassword, hkey]

/-- Witness for C10 at a concrete valid credential with an unset cache. -/
theorem credential_Equal_refl_witness :
    credential.Equal ⟨"AKIAI", "secretkey1", 0, none⟩
      ⟨"AKIAI", "secretkey1", 0, none⟩ 0 = true :=
  credential_Equal_refl ⟨"AKIAI", "secretkey1", 0, none⟩ 0 (by decide) (Or.inl rfl)
